import Mathlib

/-!
Verification development for the issue-tracker subsystem of commit-lsp.

The Rust sources are embedded shallowly: pure logic becomes Lean functions,
stateful code becomes explicit state passing (the ticket cache is threaded
through the façade operations), external effects (HTTP responses, the
filesystem, git subprocess output) become explicit inputs, and panics
(`assert_eq!`, `expect`) become a dedicated `panicked` outcome.
-/

namespace CommitLsp

/-- Modelled from the spec: the shared error taxonomy (`UpstreamError`).
The `mod.rs` snapshot in the sources declares `UpstreamError` without
variants, while the adapters and `git.rs` use `UpstreamError::Authentication`
and `UpstreamError::Other(..)`; the spec's error-handling section adds the
transport category (process/network failure). -/
inductive UpstreamError where
  | Transport (msg : String)
  | Authentication
  | Other (msg : String)
  deriving DecidableEq, Repr

/-- Embeds `Ticket` from `src/issue_tracker/mod.rs`: `{id: u64, title: String, text: String}`. -/
structure Ticket where
  id : Nat
  title : String
  text : String
  deriving DecidableEq, Repr

/-- The ticket cache, `BTreeMap<u64, Ticket>` from `src/issue_tracker/mod.rs`,
embedded as an association list kept sorted by key. -/
abbrev TicketCache := List (Nat × Ticket)

/-- Embeds `BTreeMap::get`: look up a key. -/
def cacheGet? : TicketCache → Nat → Option Ticket
  | [], _ => none
  | (k, t) :: rest, i => if k = i then some t else cacheGet? rest i

/-- Embeds `BTreeMap::insert`: insert a key/value pair, overwriting an equal key and
keeping the list sorted. -/
def cacheInsert : TicketCache → Nat → Ticket → TicketCache
  | [], k, t => [(k, t)]
  | (k', t') :: rest, k, t =>
    if k < k' then (k, t) :: (k', t') :: rest
    else if k = k' then (k, t) :: rest
    else (k', t') :: cacheInsert rest k t

/-- Embeds `BTreeMap::extend(tickets.iter().map(|t| (t.id(), t.clone())))` from
`request_ticket_information`: fold the fresh tickets into the cache. -/
def cacheExtend (c : TicketCache) (ts : List Ticket) : TicketCache :=
  ts.foldl (fun m t => cacheInsert m t.id t) c

/-- Embeds `BTreeMap::values`: the tickets in ascending key order. -/
def cacheValues (c : TicketCache) : List Ticket := c.map Prod.snd

/-- Well-formedness of the embedded cache: keys strictly ascending (the
`BTreeMap` representation invariant) and every stored ticket's id equals its
key (maintained by both cache writes in `mod.rs`). -/
def cacheWF (c : TicketCache) : Prop :=
  c.Pairwise (fun a b => a.1 < b.1) ∧ ∀ p ∈ c, p.2.id = p.1

instance : DecidablePred cacheWF := fun c => by
  unfold cacheWF; infer_instance

/-- The `IssueTrackerAdapter` trait object, with its effects reified: each
operation's result is data of the model. -/
structure Adapter where
  list_ticket_numbers : Except UpstreamError (List Nat)
  get_ticket_details : List Nat → Except UpstreamError (List Ticket)

/-- Result of a façade call that can also end in a Rust panic
(`assert_eq!` / `expect`). -/
inductive Outcome (α : Type) where
  | ok (a : α)
  | fail (e : UpstreamError)
  | panicked
  deriving DecidableEq, Repr

instance {ε α : Type} [DecidableEq ε] [DecidableEq α] : DecidableEq (Except ε α) := fun x y =>
  match x, y with
  | .ok a, .ok b =>
    if h : a = b then .isTrue (by subst h; rfl) else .isFalse (fun hh => h (Except.ok.inj hh))
  | .error a, .error b =>
    if h : a = b then .isTrue (by subst h; rfl) else .isFalse (fun hh => h (Except.error.inj hh))
  | .ok _, .error _ => .isFalse (fun hh => Except.noConfusion hh)
  | .error _, .ok _ => .isFalse (fun hh => Except.noConfusion hh)

/-- Result of `IssueTracker::get_ticket_details`: the returned value, the
cache afterwards, and how many adapter detail fetches were issued. -/
structure LookupResult where
  outcome : Outcome (Option Ticket)
  cache : TicketCache
  fetches : Nat
  deriving DecidableEq, Repr

namespace IssueTracker

/-- Embeds `IssueTracker::get_ticket_details` from `src/issue_tracker/mod.rs`:
cache hit returns the cached ticket; otherwise one single-id detail fetch,
`tickets.first()`, `assert_eq!(ticket.id(), id)` and insertion. -/
def get_ticket_details (a : Adapter) (c : TicketCache) (i : Nat) : LookupResult :=
  match cacheGet? c i with
  | some t => ⟨.ok (some t), c, 0⟩
  | none =>
    match a.get_ticket_details [i] with
    | .error e => ⟨.fail e, c, 1⟩
    | .ok tickets =>
      match tickets.head? with
      | none => ⟨.ok none, c, 1⟩
      | some t =>
        if t.id = i then ⟨.ok (some t), cacheInsert c i t, 1⟩
        else ⟨.panicked, c, 1⟩

/-- Result of `IssueTracker::request_ticket_information`. -/
structure BulkResult where
  outcome : Except UpstreamError (List Ticket)
  cache : TicketCache
  deriving DecidableEq, Repr

/-- Embeds `IssueTracker::request_ticket_information` from `src/issue_tracker/mod.rs`:
list ids, fetch all details, extend the cache, return the fresh tickets. -/
def request_ticket_information (a : Adapter) (c : TicketCache) : BulkResult :=
  match a.list_ticket_numbers with
  | .error e => ⟨.error e, c⟩
  | .ok ids =>
    match a.get_ticket_details ids with
    | .error e => ⟨.error e, c⟩
    | .ok tickets => ⟨.ok tickets, cacheExtend c tickets⟩

/-- Embeds `IssueTracker::list_tickets` from `src/issue_tracker/mod.rs`: a copy of
the cached values. -/
def list_tickets (c : TicketCache) : List Ticket := cacheValues c

end IssueTracker

theorem cacheGet?_insert_self (c : TicketCache) (k : Nat) (t : Ticket) :
    cacheGet? (cacheInsert c k t) k = some t := by
  induction c with
  | nil => simp [cacheInsert, cacheGet?]
  | cons p rest ih =>
    obtain ⟨k', t'⟩ := p
    by_cases h1 : k < k'
    · simp [cacheInsert, h1, cacheGet?]
    · by_cases h2 : k = k'
      · simp [cacheInsert, h1, h2, cacheGet?]
      · simp [cacheInsert, h1, h2, cacheGet?, Ne.symm h2, ih]

theorem cacheGet?_insert_ne (c : TicketCache) (k k' : Nat) (t : Ticket) (h : k ≠ k') :
    cacheGet? (cacheInsert c k t) k' = cacheGet? c k' := by
  induction c with
  | nil => simp [cacheInsert, cacheGet?, h]
  | cons p rest ih =>
    obtain ⟨k0, t0⟩ := p
    by_cases h1 : k < k0
    · simp [cacheInsert, h1, cacheGet?, h]
    · by_cases h2 : k = k0
      · subst h2; simp [cacheInsert, h1, cacheGet?, h]
      · simp [cacheInsert, h1, h2, cacheGet?, ih]

theorem cacheExtend_cons (c : TicketCache) (t : Ticket) (ts : List Ticket) :
    cacheExtend c (t :: ts) = cacheExtend (cacheInsert c t.id t) ts := rfl

theorem cacheGet?_extend_not_mem (ts : List Ticket) (c : TicketCache) (i : Nat)
    (h : ∀ t ∈ ts, t.id ≠ i) : cacheGet? (cacheExtend c ts) i = cacheGet? c i := by
  induction ts generalizing c with
  | nil => rfl
  | cons t ts ih =>
    rw [cacheExtend_cons, ih _ (fun u hu => h u (List.mem_cons_of_mem _ hu)),
      cacheGet?_insert_ne _ _ _ _ (h t (List.mem_cons_self _ _))]

theorem cacheGet?_extend_nodup (ts : List Ticket) (c : TicketCache)
    (h : (ts.map Ticket.id).Nodup) :
    ∀ t ∈ ts, cacheGet? (cacheExtend c ts) t.id = some t := by
  induction ts generalizing c with
  | nil => intro t ht; cases ht
  | cons u ts ih =>
    have h' : (∀ x ∈ ts, ¬ x.id = u.id) ∧ (ts.map Ticket.id).Nodup := by
      simpa using h
    intro t ht
    rcases List.mem_cons.mp ht with rfl | ht'
    · rw [cacheExtend_cons, cacheGet?_extend_not_mem ts _ t.id (fun v hv => h'.1 v hv),
        cacheGet?_insert_self]
    · exact ih _ h'.2 t ht'

theorem cacheInsert_mem (c : TicketCache) (k : Nat) (t : Ticket) :
    ∀ p ∈ cacheInsert c k t, p ∈ c ∨ p = (k, t) := by
  induction c with
  | nil => intro p hp; simp [cacheInsert] at hp; simp [hp]
  | cons q rest ih =>
    obtain ⟨k0, t0⟩ := q
    intro p hp
    by_cases h1 : k < k0
    · simp only [cacheInsert, if_pos h1, List.mem_cons] at hp
      rcases hp with rfl | rfl | hp <;> simp [*]
    · by_cases h2 : k = k0
      · simp only [cacheInsert, if_neg h1, if_pos h2, List.mem_cons] at hp
        rcases hp with rfl | hp <;> simp [*]
      · simp only [cacheInsert, if_neg h1, if_neg h2, List.mem_cons] at hp
        rcases hp with rfl | hp
        · simp
        · rcases ih p hp with h | h <;> simp [*]

theorem cacheInsert_pairwise (c : TicketCache) (k : Nat) (t : Ticket)
    (hs : c.Pairwise (fun a b => a.1 < b.1)) :
    (cacheInsert c k t).Pairwise (fun a b => a.1 < b.1) := by
  induction c with
  | nil => simp [cacheInsert]
  | cons q rest ih =>
    obtain ⟨k0, t0⟩ := q
    rw [List.pairwise_cons] at hs
    obtain ⟨hall, hrest⟩ := hs
    by_cases h1 : k < k0
    · simp only [cacheInsert, if_pos h1]
      refine List.pairwise_cons.mpr ⟨?_, List.pairwise_cons.mpr ⟨hall, hrest⟩⟩
      intro p hp
      rcases List.mem_cons.mp hp with rfl | hp'
      · exact h1
      · exact lt_trans h1 (hall p hp')
    · by_cases h2 : k = k0
      · subst h2
        simp only [cacheInsert, if_neg h1, if_pos rfl]
        exact List.pairwise_cons.mpr ⟨hall, hrest⟩
      · simp only [cacheInsert, if_neg h1, if_neg h2]
        refine List.pairwise_cons.mpr ⟨?_, ih hrest⟩
        intro p hp
        rcases cacheInsert_mem rest k t p hp with h | rfl
        · exact hall p h
        · exact lt_of_le_of_ne (not_lt.mp h1) (fun he => h2 he.symm)

theorem cacheWF_insert (c : TicketCache) (k : Nat) (t : Ticket)
    (hc : cacheWF c) (ht : t.id = k) : cacheWF (cacheInsert c k t) := by
  refine ⟨cacheInsert_pairwise c k t hc.1, fun p hp => ?_⟩
  rcases cacheInsert_mem c k t p hp with h | rfl
  · exact hc.2 p h
  · simpa using ht

theorem cacheWF_extend (ts : List Ticket) (c : TicketCache) (hc : cacheWF c) :
    cacheWF (cacheExtend c ts) := by
  induction ts generalizing c with
  | nil => exact hc
  | cons t ts ih => exact ih _ (cacheWF_insert c t.id t hc rfl)

theorem cacheWF_tail (p : Nat × Ticket) (rest : TicketCache)
    (hc : cacheWF (p :: rest)) : cacheWF rest :=
  ⟨(List.pairwise_cons.mp hc.1).2, fun q hq => hc.2 q (List.mem_cons_of_mem _ hq)⟩

theorem cacheGet?_id (c : TicketCache) (i : Nat) (t : Ticket)
    (hc : cacheWF c) (h : cacheGet? c i = some t) : t.id = i := by
  induction c with
  | nil => cases h
  | cons p rest ih =>
    obtain ⟨k, u⟩ := p
    by_cases hk : k = i
    · subst hk
      have hu : u = t := by simpa [cacheGet?] using h
      subst hu
      exact hc.2 (k, u) (List.mem_cons_self _ _)
    · simp only [cacheGet?, if_neg hk] at h
      exact ih (cacheWF_tail _ _ hc) h

theorem get_ticket_details_hit (a : Adapter) (c : TicketCache) (i : Nat) (t : Ticket)
    (h : cacheGet? c i = some t) :
    IssueTracker.get_ticket_details a c i = ⟨.ok (some t), c, 0⟩ := by
  simp [IssueTracker.get_ticket_details, h]

theorem get_ticket_details_ok_some (a : Adapter) (c : TicketCache) (i : Nat) (t : Ticket)
    (h : (IssueTracker.get_ticket_details a c i).outcome = .ok (some t)) :
    cacheGet? (IssueTracker.get_ticket_details a c i).cache i = some t ∧
    (IssueTracker.get_ticket_details a c i).fetches ≤ 1 := by
  unfold IssueTracker.get_ticket_details at h ⊢
  cases hget : cacheGet? c i with
  | some u =>
    simp only [hget] at h ⊢
    have hu : u = t := by simpa using h
    subst hu
    simp [hget]
  | none =>
    simp only [hget] at h ⊢
    cases hd : a.get_ticket_details [i] with
    | error e => simp [hd] at h
    | ok tickets =>
      simp only [hd] at h ⊢
      cases tickets with
      | nil => simp at h
      | cons u ts =>
        by_cases hid : u.id = i
        · simp only [List.head?, hid, if_pos rfl] at h ⊢
          have hu : u = t := by simpa using h
          subst hu
          simp [cacheGet?_insert_self]
        · simp [List.head?, hid] at h

theorem get_ticket_details_wf (a : Adapter) (c : TicketCache) (i : Nat)
    (hc : cacheWF c) : cacheWF (IssueTracker.get_ticket_details a c i).cache := by
  unfold IssueTracker.get_ticket_details
  cases hget : cacheGet? c i with
  | some u => simpa using hc
  | none =>
    simp only
    cases hd : a.get_ticket_details [i] with
    | error e => simpa using hc
    | ok tickets =>
      cases tickets with
      | nil => simpa using hc
      | cons u ts =>
        by_cases hid : u.id = i
        · simpa [List.head?, hid] using cacheWF_insert c i u hc hid
        · simpa [List.head?, hid] using hc

/-- C1: `IssueTracker::get_ticket_details` — a cache hit returns the cached
ticket with no adapter fetch and leaves the cache unchanged; a cache miss
issues exactly one single-id detail fetch; a miss whose fetch returns no
tickets yields `Ok(None)` (not an error) and leaves the cache unchanged; a
miss whose fetch returns a ticket matching the requested id inserts it into
the cache and returns it. -/
theorem c1_single_ticket_lookup (a : Adapter) (c : TicketCache) (i : Nat) :
    (∀ t, cacheGet? c i = some t →
      IssueTracker.get_ticket_details a c i = ⟨.ok (some t), c, 0⟩) ∧
    (cacheGet? c i = none → (IssueTracker.get_ticket_details a c i).fetches = 1) ∧
    (cacheGet? c i = none → a.get_ticket_details [i] = .ok [] →
      IssueTracker.get_ticket_details a c i = ⟨.ok none, c, 1⟩) ∧
    (∀ t ts, cacheGet? c i = none → a.get_ticket_details [i] = .ok (t :: ts) → t.id = i →
      IssueTracker.get_ticket_details a c i = ⟨.ok (some t), cacheInsert c i t, 1⟩) := by
  refine ⟨fun t ht => ?_, fun hm => ?_, fun hm he => ?_, fun t ts hm hf hid => ?_⟩
  · simp [IssueTracker.get_ticket_details, ht]
  · unfold IssueTracker.get_ticket_details
    rw [hm]
    rcases a.get_ticket_details [i] with e | tickets
    · rfl
    · rcases tickets with _ | ⟨t, ts⟩
      · rfl
      · simp only [List.head?]
        split <;> rfl
  · simp [IssueTracker.get_ticket_details, hm, he]
  · simp [IssueTracker.get_ticket_details, hm, hf, hid]

theorem c1_single_ticket_lookup_witness :
    IssueTracker.get_ticket_details
        ⟨.ok [42], fun ids => .ok (ids.filterMap
          (fun i => if i = 42 then some ⟨42, "Fix bug", "Details here"⟩ else none))⟩
        [] 42 =
      ⟨.ok (some ⟨42, "Fix bug", "Details here"⟩),
        cacheInsert [] 42 ⟨42, "Fix bug", "Details here"⟩, 1⟩ :=
  (c1_single_ticket_lookup _ [] 42).2.2.2 ⟨42, "Fix bug", "Details here"⟩ []
    rfl rfl rfl

/-- C2: `IssueTracker::request_ticket_information` — a failure of either the
id listing or the detail fetch propagates and leaves the cache exactly
unchanged; on success the returned list is exactly the freshly fetched
tickets and they are merged into the cache, same-id entries overwritten
(when the fetched ids are distinct, every fetched ticket is what the merged
cache now stores for its id). -/
theorem c2_bulk_fetch (a : Adapter) (c : TicketCache) :
    (∀ e, a.list_ticket_numbers = .error e →
      IssueTracker.request_ticket_information a c = ⟨.error e, c⟩) ∧
    (∀ ids e, a.list_ticket_numbers = .ok ids → a.get_ticket_details ids = .error e →
      IssueTracker.request_ticket_information a c = ⟨.error e, c⟩) ∧
    (∀ ids ts, a.list_ticket_numbers = .ok ids → a.get_ticket_details ids = .ok ts →
      IssueTracker.request_ticket_information a c = ⟨.ok ts, cacheExtend c ts⟩ ∧
      ((ts.map Ticket.id).Nodup →
        ∀ t ∈ ts, cacheGet? (cacheExtend c ts) t.id = some t)) := by
  refine ⟨fun e he => ?_, fun ids e hl he => ?_, fun ids ts hl hd => ⟨?_, ?_⟩⟩
  · simp [IssueTracker.request_ticket_information, he]
  · simp [IssueTracker.request_ticket_information, hl, he]
  · simp [IssueTracker.request_ticket_information, hl, hd]
  · exact fun hn => cacheGet?_extend_nodup ts c hn

theorem c2_bulk_fetch_witness :
    IssueTracker.request_ticket_information
        ⟨.ok [42], fun ids => .ok (ids.filterMap
          (fun i => if i = 42 then some ⟨42, "Fix bug", "Details here"⟩ else none))⟩
        [] =
      ⟨.ok [⟨42, "Fix bug", "Details here"⟩],
        cacheExtend [] [⟨42, "Fix bug", "Details here"⟩]⟩ :=
  ((c2_bulk_fetch _ []).2.2 [42] [⟨42, "Fix bug", "Details here"⟩] rfl rfl).1

/-- A test adapter double that knows exactly ticket 42. -/
def demoFixtureAdapter : Adapter :=
  ⟨.ok [42], fun ids => .ok (ids.filterMap
    (fun i => if i = 42 then some ⟨42, "Fix bug", "Details here"⟩ else none))⟩

/-- A test adapter double whose detail fetches always come back empty. -/
def emptyAdapter : Adapter := ⟨.ok [], fun _ => .ok []⟩

/-- A misbehaving test adapter double that answers every detail fetch with a
ticket whose id is 99. -/
def mismatchAdapter : Adapter := ⟨.ok [], fun _ => .ok [⟨99, "t", "b"⟩]⟩

/-- C4 as stated is false: a lookup that finds nothing caches nothing, so two
sequential lookups of an id the adapter has no ticket for issue two detail
fetches, not at most one. -/
theorem c4_cache_idempotence_counterexample :
    ¬ ((IssueTracker.get_ticket_details emptyAdapter [] 7).fetches +
       (IssueTracker.get_ticket_details emptyAdapter
         (IssueTracker.get_ticket_details emptyAdapter [] 7).cache 7).fetches ≤ 1) := by
  decide

/-- C4 amended: whenever the first lookup returns a found ticket, the second
lookup of the same id is served from the cache with no adapter fetch, so the
two lookups together issue at most one detail fetch. (When the first lookup
returns not-found or an error, nothing is cached and the second lookup
fetches again.) -/
theorem c4_cache_idempotence_amended (a : Adapter) (c : TicketCache) (i : Nat) :
    ∀ t, (IssueTracker.get_ticket_details a c i).outcome = .ok (some t) →
      IssueTracker.get_ticket_details a (IssueTracker.get_ticket_details a c i).cache i =
        ⟨.ok (some t), (IssueTracker.get_ticket_details a c i).cache, 0⟩ ∧
      (IssueTracker.get_ticket_details a c i).fetches +
        (IssueTracker.get_ticket_details a
          (IssueTracker.get_ticket_details a c i).cache i).fetches ≤ 1 := by
  intro t ht
  obtain ⟨h1, h2⟩ := get_ticket_details_ok_some a c i t ht
  have hsec := get_ticket_details_hit a _ i t h1
  exact ⟨hsec, by rw [hsec]; simpa using h2⟩

theorem c4_cache_idempotence_witness :
    IssueTracker.get_ticket_details demoFixtureAdapter
        (IssueTracker.get_ticket_details demoFixtureAdapter [] 42).cache 42 =
      ⟨.ok (some ⟨42, "Fix bug", "Details here"⟩),
        (IssueTracker.get_ticket_details demoFixtureAdapter [] 42).cache, 0⟩ ∧
    (IssueTracker.get_ticket_details demoFixtureAdapter [] 42).fetches +
      (IssueTracker.get_ticket_details demoFixtureAdapter
        (IssueTracker.get_ticket_details demoFixtureAdapter [] 42).cache 42).fetches ≤ 1 :=
  c4_cache_idempotence_amended demoFixtureAdapter [] 42
    ⟨42, "Fix bug", "Details here"⟩ (by decide)

/-- C5: every ticket returned by a single-ticket lookup on a well-formed
cache has the requested id, and when the adapter's first returned ticket has
a different id the lookup ends in the `assert_eq!` panic rather than a
recoverable error or the mismatched ticket. -/
theorem c5_id_equality (a : Adapter) (c : TicketCache) (i : Nat) :
    (cacheWF c → ∀ t, (IssueTracker.get_ticket_details a c i).outcome = .ok (some t) →
      t.id = i) ∧
    (∀ t ts, cacheGet? c i = none → a.get_ticket_details [i] = .ok (t :: ts) → t.id ≠ i →
      IssueTracker.get_ticket_details a c i = ⟨.panicked, c, 1⟩) := by
  constructor
  · intro hc t ht
    exact cacheGet?_id _ i t (get_ticket_details_wf a c i hc)
      (get_ticket_details_ok_some a c i t ht).1
  · intro t ts hm hf hid
    simp [IssueTracker.get_ticket_details, hm, hf, List.head?, hid]

theorem c5_id_equality_witness :
    IssueTracker.get_ticket_details mismatchAdapter [] 7 = ⟨.panicked, [], 1⟩ :=
  (c5_id_equality mismatchAdapter [] 7).2 ⟨99, "t", "b"⟩ [] rfl rfl (by decide)

/-- C10: the snapshot listing of an unpopulated tracker is empty, and on any
well-formed cache (the `BTreeMap` keyed by ticket id) the listed tickets have
strictly increasing ids with no duplicates. -/
theorem c10_snapshot_listing (c : TicketCache) :
    IssueTracker.list_tickets ([] : TicketCache) = [] ∧
    (cacheWF c →
      ((IssueTracker.list_tickets c).map Ticket.id).Chain' (· < ·) ∧
      ((IssueTracker.list_tickets c).map Ticket.id).Nodup) := by
  refine ⟨rfl, fun hc => ?_⟩
  have hmap : (IssueTracker.list_tickets c).map Ticket.id = c.map Prod.fst := by
    unfold IssueTracker.list_tickets cacheValues
    rw [List.map_map]
    exact List.map_congr_left (fun p hp => hc.2 p hp)
  have hpair : (c.map Prod.fst).Pairwise (· < ·) :=
    (List.pairwise_map).mpr hc.1
  rw [hmap]
  exact ⟨hpair.chain', hpair.imp (fun h => Nat.ne_of_lt h)⟩

theorem c10_snapshot_listing_witness :
    ((IssueTracker.list_tickets [(1, ⟨1, "a", "b"⟩), (3, ⟨3, "c", "d"⟩)]).map
      Ticket.id).Chain' (· < ·) ∧
    ((IssueTracker.list_tickets [(1, ⟨1, "a", "b"⟩), (3, ⟨3, "c", "d"⟩)]).map
      Ticket.id).Nodup :=
  (c10_snapshot_listing [(1, ⟨1, "a", "b"⟩), (3, ⟨3, "c", "d"⟩)]).2 (by decide)

/-- Embeds `IssueTrackerType` from `src/issue_tracker/builder.rs`. -/
inductive IssueTrackerType where
  | Demo
  | Gitlab
  | Github
  | AzureDevOps
  deriving DecidableEq, Repr

/-- Does the second character list start with the first (`str::starts_with`)? -/
def startsWithList : List Char → List Char → Bool
  | [], _ => true
  | _ :: _, [] => false
  | a :: as, b :: bs => a = b && startsWithList as bs

/-- Helper for `str::contains`: does `pat` occur in the list anywhere? -/
def containsList (pat : List Char) : List Char → Bool
  | [] => startsWithList pat []
  | s@(_ :: rest) => startsWithList pat s || containsList pat rest

/-- Embeds `str::contains(pattern)`: substring containment. -/
def strContains (s pat : String) : Bool := containsList pat.data s.data

/-- Embeds `str::starts_with(pattern)`. -/
def strStartsWith (s pat : String) : Bool := startsWithList pat.data s.data

/-- The fields of `git_url_parse::GitUrl` (an external crate) that the
subsystem reads. -/
structure GitUrl where
  host : Option String
  organization : Option String
  owner : Option String
  name : String
  deriving DecidableEq, Repr

/-- Embeds `IssueTrackerType::guess_from_url` from `src/issue_tracker/builder.rs`.
The debug-only `COMMIT_LSP_DEMO_FOLDER` environment override is reified as
the boolean `demoEnv`. -/
def IssueTrackerType.guess_from_url (demoEnv : Bool) (url : GitUrl) :
    Option IssueTrackerType :=
  if demoEnv then some .Demo
  else
    match url.host with
    | none => none
    | some h =>
      if h = "ssh.dev.azure.com" ∨ h = "dev.azure.com" then some .AzureDevOps
      else if h = "github.com" then some .Github
      else if strContains h "gitlab" then some .Gitlab
      else none

/-- Embeds `config::Remote` from `src/config.rs`. -/
structure Remote where
  host : String
  credentials_command : Option (List String)
  issue_tracker_type : Option IssueTrackerType
  issue_tracker_url : Option String

/-- Embeds `Builder` from `src/issue_tracker/builder.rs`. -/
structure Builder where
  tracker_type : Option IssueTrackerType
  url : GitUrl
  credential_command : Option (List String)
  deriving DecidableEq, Repr

/-- Embeds `healthcheck::ComponentState` from `src/healthcheck.rs`. -/
inductive ComponentState where
  | ok (txt : Option String)
  | info (txt : String)
  | warning (txt : String)
  | error (txt : String)
  deriving DecidableEq, Repr

/-- Embeds `Builder::add_remote_config` from `src/issue_tracker/builder.rs`.
The external `GitUrl::parse` and `GitUrl::trim_auth` come in as parameters
(a parse error carries its rendered message). The `.panicked` outcome models
the `expect("URL override is not a valid url!")` that re-parses the override
unconditionally after the match has already reported the failure. The health
entries reported during the call are returned as (component, state) pairs. -/
def Builder.add_remote_config (parse : String → Except String GitUrl)
    (trimAuthStr : GitUrl → String) (b : Builder) (config : Remote) :
    Outcome Builder × List (String × ComponentState) :=
  let b := { b with credential_command := config.credentials_command }
  match config.issue_tracker_url with
  | none => (.ok b, [])
  | some url_override =>
    match parse url_override with
    | .ok url =>
      (.ok { b with url := url },
        [("Apply url overwrite", .ok (some (trimAuthStr url)))])
    | .error err =>
      (.panicked, [("Apply url overwrite", .error err)])

/-- Embeds `ListIssuesResponse` from `src/issue_tracker/github.rs`. -/
structure ListIssuesResponse where
  number : Nat
  title : String
  body : Option String
  deriving DecidableEq, Repr

/-- An HTTP response as the GitHub adapter observes it: status code, response
text, and the result of deserializing the body as a list of issues (`none`
when deserialization fails). -/
structure HttpResponse where
  status : Nat
  text : String
  issues : Option (List ListIssuesResponse)
  deriving DecidableEq, Repr

/-- Embeds `StatusCode::is_success`: a 2xx status. -/
def isSuccessStatus (status : Nat) : Bool := 200 ≤ status && status ≤ 299

namespace Github

/-- Embeds the response handling of `Github::list_ticket_numbers` from
`src/issue_tracker/github.rs`: a non-success status becomes
`UpstreamError::Other(result.text())`; otherwise the issue numbers are read
from the deserialized body. `jsonErr` models the conversion of a `reqwest`
deserialization failure into the shared error type (that `From` impl is not
among the given sources). -/
def list_ticket_numbers (jsonErr : String → UpstreamError) (resp : HttpResponse) :
    Except UpstreamError (List Nat) :=
  if isSuccessStatus resp.status = false then .error (.Other resp.text)
  else
    match resp.issues with
    | none => .error (jsonErr resp.text)
    | some issues => .ok (issues.map ListIssuesResponse.number)

/-- Embeds the response handling of `Github::get_ticket_details` from
`src/issue_tracker/github.rs`: one request per id, never inspecting the HTTP
status; `respFor` is the result of deserializing the per-id response body
(`none` = deserialization failure, which aborts the whole loop with
`jsonErr`); the built ticket reuses the requested id, and a missing body
defaults to the empty string. -/
def get_ticket_details (jsonErr : UpstreamError)
    (respFor : Nat → Option ListIssuesResponse) :
    List Nat → Except UpstreamError (List Ticket)
  | [] => .ok []
  | i :: rest =>
    match respFor i with
    | none => .error jsonErr
    | some r =>
      match get_ticket_details jsonErr respFor rest with
      | .error e => .error e
      | .ok ts => .ok (⟨i, r.title, r.body.getD ""⟩ :: ts)

end Github

/-- Embeds `str::lines`: lines are split at `\n`, a `\r` immediately before a
`\n` is stripped, and a final line terminator produces no extra empty line.
The accumulator holds the current line reversed. -/
def rustLinesAux : List Char → List Char → List String
  | [], [] => []
  | [], acc => [String.mk acc.reverse]
  | '\n' :: rest, acc =>
    String.mk (match acc with | '\r' :: a => a | a => a).reverse :: rustLinesAux rest []
  | c :: rest, acc => rustLinesAux rest (c :: acc)

/-- Embeds `str::lines` on a string. -/
def rustLines (s : String) : List String := rustLinesAux s.data []

namespace DemoAdapter

/-- Embeds `DemoAdapter::load_ticket` from `src/issue_tracker/demo.rs`. The
fixture directory is reified as a map from file name to contents (`none` =
the file does not open or read); the first line is the title and the lines
after the blank separator line are the body. -/
def load_ticket (files : String → Option String) (i : Nat) : Option Ticket :=
  match files (toString i) with
  | none => none
  | some buffer =>
    match rustLines buffer with
    | [] => none
    | title :: rest => some ⟨i, title, String.intercalate "\n" (rest.drop 1)⟩

/-- Embeds `DemoAdapter::get_ticket_details` from `src/issue_tracker/demo.rs`:
requested ids whose file is missing or unparsable are silently skipped. -/
def get_ticket_details (files : String → Option String) (ids : List Nat) :
    Except UpstreamError (List Ticket) :=
  .ok (ids.filterMap (load_ticket files))

end DemoAdapter

/-- The fixture directory of the offline round-trip scenario: one file named
`42` containing `"Fix bug\n\nDetails here"`. -/
def fixture42 : String → Option String :=
  fun n => if n = "42" then some "Fix bug\n\nDetails here" else none

/-- Drops leading whitespace from a character list. -/
def dropWhitespaceHead : List Char → List Char
  | [] => []
  | c :: rest => if c.isWhitespace then dropWhitespaceHead rest else c :: rest

/-- Embeds `str::trim_end`: drop trailing whitespace. -/
def rustTrimEnd (s : String) : String :=
  String.mk (dropWhitespaceHead s.data.reverse).reverse

/-- Embeds `str::trim`: drop leading and trailing whitespace. -/
def rustTrim (s : String) : String :=
  String.mk ((dropWhitespaceHead (dropWhitespaceHead s.data).reverse).reverse)

/-- Embeds `Path::join` on the path-as-string model: joining an absolute
second component replaces the base. -/
def joinPath (base sub : String) : String :=
  if strStartsWith sub "/" then sub else base ++ "/" ++ sub

/-- Embeds string slicing `&line["worktree ".len()..]`: drop the first `n`
characters. -/
def strDropChars (s : String) (n : Nat) : String := String.mk (s.data.drop n)

/-- The git subprocess environment that `get_repo_root` consults, reified:
each field is the stdout of the respective command when it exits
successfully (`none` = non-success exit). `git_dir_at p` is
`git rev-parse --git-dir` run with working directory `p`; there `none`
models stdout that is not valid UTF-8, which the scanning loop skips. -/
structure GitEnv where
  show_toplevel : Option String
  git_dir : Option String
  git_common_dir : Option String
  worktree_list : Option String
  git_dir_at : String → Option String

/-- Embeds the candidate-scanning loop of `get_repo_root` (`src/git.rs`):
lines not starting with `"worktree "` are skipped; a candidate whose joined
metadata path equals the common (base) path is remembered as the fallback
(the accumulator, last such candidate wins); the first candidate whose
joined metadata path equals the target is returned immediately; when the
lines run out the fallback is returned, or the scan-exhausted error. -/
def scanWorktrees (gitDirAt : String → Option String) (base tgt : String) :
    List String → Option String → Except UpstreamError String
  | [], none => .error (.Other "Failed to find working directory")
  | [], some p => .ok p
  | line :: rest, acc =>
    if strStartsWith line "worktree " then
      let path := strDropChars line 9
      match gitDirAt path with
      | none => scanWorktrees gitDirAt base tgt rest acc
      | some out =>
        let gitDir := joinPath path (rustTrimEnd out)
        if gitDir = base then scanWorktrees gitDirAt base tgt rest (some path)
        else if gitDir = tgt then .ok path
        else scanWorktrees gitDirAt base tgt rest acc
    else scanWorktrees gitDirAt base tgt rest acc

/-- Embeds `get_repo_root` from `src/git.rs`: the fast path returns the
trimmed `--show-toplevel` output; otherwise the target (`--git-dir`) and
common (`--git-common-dir`) metadata paths are read (failure of either is
the "Not in git repo" error), the porcelain worktree listing is read, and
the candidates are scanned. -/
def get_repo_root (env : GitEnv) : Except UpstreamError String :=
  match env.show_toplevel with
  | some out => .ok (rustTrim out)
  | none =>
    match env.git_dir with
    | none => .error (.Other "Not in git repo")
    | some tgtOut =>
      match env.git_common_dir with
      | none => .error (.Other "Not in git repo")
      | some comOut =>
        match env.worktree_list with
        | none => .error (.Other "Failed to get worktrees")
        | some wl =>
          scanWorktrees env.git_dir_at (rustTrimEnd comOut) (rustTrimEnd tgtOut)
            (rustLines wl) none

/-- Is the error of the free-text `Other` category? -/
def UpstreamError.isOtherKind : UpstreamError → Bool
  | .Other _ => true
  | _ => false

/-- C3: the claim says a URL override that fails to parse is reported to the
health collaborator and the builder keeps the original remote URL without
aborting. On the code, after the match arm reports the failure,
`builder.rs` line 89 re-parses the override with
`expect("URL override is not a valid url!")`, so the call panics instead of
falling back. This theorem evaluates the embedded `add_remote_config` at
such a failing input: the error is reported, and the outcome is the panic,
not a builder retaining the original URL. -/
theorem c3_url_override_parse_failure_panics :
    Builder.add_remote_config (fun _ => .error "invalid url") (fun _ => "")
        ⟨none, ⟨none, none, none, ""⟩, none⟩
        ⟨"github.com", none, none, some "not a url"⟩ =
      (.panicked, [("Apply url overwrite", .error "invalid url")]) := rfl

/-- C6 counterexample: a 401 response to the GitHub listing request is mapped
to the free-text `Other` category carrying the response text, not to the
`Authentication` category the claim names. -/
theorem c6_github_unauthorized_counterexample :
    Github.list_ticket_numbers UpstreamError.Other ⟨401, "Unauthorized", none⟩ =
      .error (.Other "Unauthorized") ∧
    UpstreamError.Other "Unauthorized" ≠ .Authentication := by
  exact ⟨rfl, by decide⟩

/-- C6 amended: for the GitHub adapter, an unauthorized (HTTP 401) response
to a listing request yields an error of the free-text `Other` category
carrying the response text (as every non-success status does), and never the
`Authentication` category. -/
theorem c6_github_error_mapping_amended (jsonErr : String → UpstreamError)
    (resp : HttpResponse) (h : resp.status = 401) :
    Github.list_ticket_numbers jsonErr resp = .error (.Other resp.text) ∧
    Github.list_ticket_numbers jsonErr resp ≠ .error .Authentication := by
  have hs : isSuccessStatus resp.status = false := by rw [h]; rfl
  refine ⟨by simp [Github.list_ticket_numbers, hs], by simp [Github.list_ticket_numbers, hs]⟩

theorem c6_github_error_mapping_witness :
    Github.list_ticket_numbers UpstreamError.Other ⟨401, "x", some []⟩ =
      .error (.Other "x") ∧
    Github.list_ticket_numbers UpstreamError.Other ⟨401, "x", some []⟩ ≠
      .error .Authentication :=
  c6_github_error_mapping_amended UpstreamError.Other ⟨401, "x", some []⟩ rfl

/-- C7: backend guessing without the debug environment override — the guess
is AzureDevOps exactly for hosts `dev.azure.com` and `ssh.dev.azure.com`,
GitHub exactly for `github.com`, GitLab for any host containing the
substring "gitlab" anywhere, and there is no guess otherwise, nor for a URL
without a host. -/
theorem c7_backend_guessing (url : GitUrl) (h : String) :
    (url.host = some h →
      ((h = "dev.azure.com" ∨ h = "ssh.dev.azure.com") →
        IssueTrackerType.guess_from_url false url = some .AzureDevOps) ∧
      (h = "github.com" → IssueTrackerType.guess_from_url false url = some .Github) ∧
      (strContains h "gitlab" = true →
        IssueTrackerType.guess_from_url false url = some .Gitlab) ∧
      (h ≠ "dev.azure.com" → h ≠ "ssh.dev.azure.com" → h ≠ "github.com" →
        strContains h "gitlab" = false →
        IssueTrackerType.guess_from_url false url = none)) ∧
    (url.host = none → IssueTrackerType.guess_from_url false url = none) := by
  constructor
  · intro hh
    refine ⟨?_, ?_, ?_, ?_⟩
    · rintro (rfl | rfl) <;> (unfold IssueTrackerType.guess_from_url; rw [hh]; decide)
    · rintro rfl; unfold IssueTrackerType.guess_from_url; rw [hh]; decide
    · intro hcont
      have h1 : h ≠ "ssh.dev.azure.com" := by rintro rfl; exact absurd hcont (by decide)
      have h2 : h ≠ "dev.azure.com" := by rintro rfl; exact absurd hcont (by decide)
      have h3 : h ≠ "github.com" := by rintro rfl; exact absurd hcont (by decide)
      unfold IssueTrackerType.guess_from_url
      rw [hh]
      simp [h1, h2, h3, hcont]
    · intro h2 h1 h3 hcont
      unfold IssueTrackerType.guess_from_url
      rw [hh]
      simp [h1, h2, h3, hcont]
  · intro hh
    unfold IssueTrackerType.guess_from_url
    rw [hh]
    decide

theorem c7_backend_guessing_witness :
    IssueTrackerType.guess_from_url false ⟨some "bitbucket.org", none, none, ""⟩ = none ∧
    IssueTrackerType.guess_from_url false ⟨some "my-gitlab.org", none, none, ""⟩ =
      some .Gitlab ∧
    IssueTrackerType.guess_from_url false ⟨some "ssh.dev.azure.com", none, none, ""⟩ =
      some .AzureDevOps ∧
    IssueTrackerType.guess_from_url false ⟨some "github.com", none, none, ""⟩ =
      some .Github :=
  ⟨((c7_backend_guessing ⟨some "bitbucket.org", none, none, ""⟩ "bitbucket.org").1
      rfl).2.2.2 (by decide) (by decide) (by decide) (by decide),
   ((c7_backend_guessing ⟨some "my-gitlab.org", none, none, ""⟩ "my-gitlab.org").1
      rfl).2.2.1 (by decide),
   ((c7_backend_guessing ⟨some "ssh.dev.azure.com", none, none, ""⟩ "ssh.dev.azure.com").1
      rfl).1 (Or.inr rfl),
   ((c7_backend_guessing ⟨some "github.com", none, none, ""⟩ "github.com").1
      rfl).2.1 rfl⟩

theorem load_ticket_id (files : String → Option String) (i : Nat) (t : Ticket)
    (h : DemoAdapter.load_ticket files i = some t) : t.id = i := by
  cases hf : files (toString i) with
  | none => simp only [DemoAdapter.load_ticket, hf] at h; exact Option.noConfusion h
  | some buffer =>
    cases hl : rustLines buffer with
    | nil => simp only [DemoAdapter.load_ticket, hf, hl] at h; exact Option.noConfusion h
    | cons title rest =>
      simp only [DemoAdapter.load_ticket, hf, hl] at h
      obtain rfl := Option.some.inj h
      rfl

theorem load_ticket_file_exists (files : String → Option String) (i : Nat) (t : Ticket)
    (h : DemoAdapter.load_ticket files i = some t) : files (toString i) ≠ none := by
  cases hf : files (toString i) with
  | none => simp only [DemoAdapter.load_ticket, hf] at h; exact Option.noConfusion h
  | some b => simp [hf]

/-- C8: the offline test-double round trip — on the fixture directory whose
file `42` contains `"Fix bug\n\nDetails here"`, a detail fetch for `[42]`
returns exactly one ticket `{id: 42, title: "Fix bug", body: "Details here"}`;
and on any fixture directory a detail fetch never errors, every returned
ticket answers a requested id whose file exists, and ids whose file is
missing or unparsable are silently omitted. -/
theorem c8_offline_round_trip (files : String → Option String) (ids : List Nat) :
    DemoAdapter.get_ticket_details fixture42 [42] =
      .ok [⟨42, "Fix bug", "Details here"⟩] ∧
    ∃ ts, DemoAdapter.get_ticket_details files ids = .ok ts ∧
      (∀ t ∈ ts, t.id ∈ ids ∧ files (toString t.id) ≠ none) ∧
      (∀ i, DemoAdapter.load_ticket files i = none → ∀ t ∈ ts, t.id ≠ i) := by
  refine ⟨by decide, ids.filterMap (DemoAdapter.load_ticket files), rfl, ?_, ?_⟩
  · intro t ht
    obtain ⟨i, hi, hload⟩ := List.mem_filterMap.mp ht
    have hid : t.id = i := load_ticket_id files i t hload
    rw [hid]
    exact ⟨hi, load_ticket_file_exists files i t hload⟩
  · intro i hnone t ht hti
    obtain ⟨j, _, hload⟩ := List.mem_filterMap.mp ht
    have hid : t.id = j := load_ticket_id files j t hload
    rw [hti] at hid
    rw [← hid] at hload
    rw [hnone] at hload
    cases hload

theorem c8_offline_round_trip_witness :
    DemoAdapter.get_ticket_details fixture42 [42] =
      .ok [⟨42, "Fix bug", "Details here"⟩] ∧
    ∃ ts, DemoAdapter.get_ticket_details fixture42 [42, 7] = .ok ts ∧
      (∀ t ∈ ts, t.id ∈ [42, 7] ∧ fixture42 (toString t.id) ≠ none) ∧
      (∀ i, DemoAdapter.load_ticket fixture42 i = none → ∀ t ∈ ts, t.id ≠ i) :=
  c8_offline_round_trip fixture42 [42, 7]

/-- A fabricated environment: a repository whose common metadata directory is
`/repo/.git`, with the main worktree at `/repo` and a linked worktree at
`/wt1`, resolved from inside the linked worktree (so the target metadata
path is `/repo/.git/worktrees/wt1`). -/
def envLinkedWorktree : GitEnv :=
  { show_toplevel := none
    git_dir := some "/repo/.git/worktrees/wt1\n"
    git_common_dir := some "/repo/.git\n"
    worktree_list := some "worktree /repo\nHEAD abc\n\nworktree /wt1\nHEAD def\n\n"
    git_dir_at := fun p =>
      if p = "/repo" then some ".git\n"
      else if p = "/wt1" then some "/repo/.git/worktrees/wt1\n"
      else none }

/-- A fabricated environment for a working directory that is in no
repository: every metadata query fails. -/
def envNotInRepo : GitEnv :=
  { show_toplevel := none
    git_dir := none
    git_common_dir := none
    worktree_list := none
    git_dir_at := fun _ => none }

/-- A fabricated environment whose single worktree candidate matches neither
the common nor the target metadata path, so the scan is exhausted. -/
def envNoMatch : GitEnv :=
  { show_toplevel := none
    git_dir := some "/repo/.git/worktrees/wt1\n"
    git_common_dir := some "/repo/.git\n"
    worktree_list := some "worktree /other\nHEAD abc\n\n"
    git_dir_at := fun _ => some "/other/.git\n" }

/-- C9: worktree resolution — in the two-entry scenario (main worktree's
metadata path equals the common path, linked worktree's equals the target)
resolving from the linked worktree returns the linked worktree's path; in
general the first candidate whose joined metadata path equals the target
wins immediately, whatever fallback was remembered; resolving outside any
repository and exhausting the scan both fail, and both errors are of the
same free-text `Other` kind. -/
theorem c9_worktree_resolution :
    get_repo_root envLinkedWorktree = .ok "/wt1" ∧
    (∀ gda base tgt line rest acc path out,
      strStartsWith line "worktree " = true → strDropChars line 9 = path →
      gda path = some out → joinPath path (rustTrimEnd out) ≠ base →
      joinPath path (rustTrimEnd out) = tgt →
      scanWorktrees gda base tgt (line :: rest) acc = .ok path) ∧
    get_repo_root envNotInRepo = .error (.Other "Not in git repo") ∧
    get_repo_root envNoMatch = .error (.Other "Failed to find working directory") ∧
    UpstreamError.isOtherKind (.Other "Not in git repo") = true ∧
    UpstreamError.isOtherKind (.Other "Failed to find working directory") = true := by
  refine ⟨by decide, ?_, by decide, by decide, rfl, rfl⟩
  intro gda base tgt line rest acc path out hstart hdrop hgda hne heq
  unfold scanWorktrees
  rw [hstart]
  simp only [if_true]
  rw [hdrop, hgda]
  simp only [heq, if_neg (heq ▸ hne)]
  simp

theorem c9_worktree_resolution_witness :
    scanWorktrees (fun p => if p = "/wt1" then some "/repo/.git/worktrees/wt1\n" else none)
      "/repo/.git" "/repo/.git/worktrees/wt1"
      ["worktree /wt1", "worktree /ignored"] (some "/repo") = .ok "/wt1" :=
  c9_worktree_resolution.2.1
    (fun p => if p = "/wt1" then some "/repo/.git/worktrees/wt1\n" else none)
    "/repo/.git" "/repo/.git/worktrees/wt1" "worktree /wt1" ["worktree /ignored"]
    (some "/repo") "/wt1" "/repo/.git/worktrees/wt1\n"
    (by decide) (by decide) (by decide) (by decide) (by decide)

end CommitLsp
